import Mathlib

/-!
Verification of the Ewabotjur deterministic decision core against its
natural-language specification.  Each Python function under scrutiny is
shallowly embedded as an executable Lean definition, translated from the
source file named in the doc comment; theorems about those definitions
settle the spec claims.
-/

namespace Ewabot

/-! ### Tax-ID validator — `src/src/utils/inn_parser.py` -/

/-- One digit character's numeric value, as Python's `int(inn[i])`. -/
def digitVal (c : Char) : Nat := c.toNat - 48

/-- Char at index `i` of a char list, with a default (indices are always
in range where this is used). -/
def charAt (l : List Char) (i : Nat) : Char := l.getD i '0'

/-- `int(inn[i])` on the char list. -/
def digitAt (l : List Char) (i : Nat) : Nat := digitVal (charAt l i)

/-- Coefficients of the 10-digit INN checksum (`inn_parser.py` line 78). -/
def coeffs10 : List Nat := [2, 4, 10, 3, 5, 9, 4, 6, 8]

/-- Coefficients of the 11th-digit check of a 12-digit INN. -/
def coeffs11 : List Nat := [7, 2, 4, 10, 3, 5, 9, 4, 6, 8]

/-- Coefficients of the 12th-digit check of a 12-digit INN. -/
def coeffs12 : List Nat := [3, 7, 2, 4, 10, 3, 5, 9, 4, 6, 8]

/-- `sum(int(inn[i]) * coefficients[i] for i in range(k)) % 11 % 10`:
`zipWith` truncates at the coefficient list's length, exactly `range(k)`. -/
def innChecksum (l : List Char) (coeffs : List Nat) : Nat :=
  (List.zipWith (fun a b => a * b) (l.map digitVal) coeffs).sum % 11 % 10

/-- Embedding of `validate_inn` (`src/src/utils/inn_parser.py` lines 56-90):
length must be 10 or 12, all characters digits, then the positional
checksum(s). -/
def validate_inn (inn : String) : Bool :=
  let l := inn.toList
  if l.length = 10 ∨ l.length = 12 then
    if l.all Char.isDigit then
      if l.length = 10 then
        decide (innChecksum l coeffs10 = digitAt l 9)
      else
        decide (innChecksum l coeffs11 = digitAt l 10) &&
          decide (innChecksum l coeffs12 = digitAt l 11)
    else false
  else false

/-- The validity predicate exactly as the specification words it: all ASCII
digits, length 10 or 12, and the positional checksum(s) hold.  Stated
independently of `validate_inn` so the two can be compared. -/
def ValidInnSpec (inn : String) : Prop :=
  let l := inn.toList
  (∀ c ∈ l, c.isDigit = true) ∧
    ((l.length = 10 ∧ innChecksum l coeffs10 = digitAt l 9) ∨
      (l.length = 12 ∧ innChecksum l coeffs11 = digitAt l 10 ∧
        innChecksum l coeffs12 = digitAt l 11))

def innGood : String := "7707083893"

def innBad : String := "7707083892"

/-- Embedding of `is_valid_inn` (`src/src/services/inn_validation.py`):
non-empty, all digits, length 10 or 12 — no checksum. -/
def is_valid_inn (inn : String) : Bool :=
  if inn.toList = [] then false
  else if ¬ inn.toList.all Char.isDigit then false
  else decide (inn.toList.length = 10 ∨ inn.toList.length = 12)

/-- Python's regex word class `\w` restricted to the alphabets this
repository handles: ASCII letters, digits, underscore, and the Cyrillic
block U+0400–U+04FF. -/
def isWordChar (c : Char) : Bool :=
  c.isAlpha || c.isDigit || c == '_' ||
    (decide (1024 ≤ c.toNat) && decide (c.toNat ≤ 1279))

/-- The `\b` condition to the left of a digit: the previous character, if
any, is a non-word character. -/
def prevOk : Option Char → Bool
  | none => true
  | some p => ! isWordChar p

/-- Does `\b\d{n}\b` match at the start of `cs`, given that the character
before `cs` satisfies `\b` iff `bOk`?  (The leading `\b` reduces to `bOk`
because the first matched character is a digit, hence a word character.) -/
def runMatch (bOk : Bool) (cs : List Char) (n : Nat) : Bool :=
  bOk && decide (n ≤ cs.length) &&
    (List.range n).all (fun k => (charAt cs k).isDigit) &&
    (decide (n = cs.length) || ! isWordChar (charAt cs n))

/-- Left-to-right scan of `re.findall(r'\b\d{10}\b|\b\d{12}\b', text)`
stopping at the first match, as `matches[0]` does; `prev` is the character
before the current position.  At each position the `\d{10}` alternative is
tried before `\d{12}`, as in the source pattern. -/
def scanInn (prev : Option Char) (cs : List Char) : Option (List Char) :=
  match cs with
  | [] => none
  | c :: rest =>
    if runMatch (prevOk prev) (c :: rest) 10 then some ((c :: rest).take 10)
    else if runMatch (prevOk prev) (c :: rest) 12 then some ((c :: rest).take 12)
    else scanInn (some c) rest

/-- Embedding of `extract_inn` (`src/src/utils/inn_parser.py` lines 8-36):
first regex match, then the redundant `len(inn) in [10, 12]` check. -/
def extract_inn (text : String) : Option String :=
  match scanInn none text.toList with
  | none => none
  | some l => if l.length = 10 ∨ l.length = 12 then some (String.mk l) else none

/-- `\b\d{L}\b` matches `cs` at position `i` (index form), with `prev` the
character preceding `cs`. -/
def MatchPos (prev : Option Char) (cs : List Char) (i L : Nat) : Prop :=
  i + L ≤ cs.length ∧
  (∀ k, k < L → (charAt cs (i + k)).isDigit = true) ∧
  (if i = 0 then prevOk prev = true
   else isWordChar (charAt cs (i - 1)) = false) ∧
  (i + L = cs.length ∨ isWordChar (charAt cs (i + L)) = false)

/-- The claim's own notion: a digit run at position `i` of length `L`
delimited by NON-DIGIT (rather than non-word) boundaries. -/
def DigitBoundedRunAt (cs : List Char) (i L : Nat) : Prop :=
  i + L ≤ cs.length ∧
  (∀ k, k < L → (charAt cs (i + k)).isDigit = true) ∧
  (i = 0 ∨ (charAt cs (i - 1)).isDigit = false) ∧
  (i + L = cs.length ∨ (charAt cs (i + L)).isDigit = false)

/-- `s` is the leftmost 10- or 12-character digit run of `t` delimited by
non-digit boundaries — the claim's stated characterisation. -/
def IsLeftmostDigitBoundedRun (t s : String) : Prop :=
  ∃ i, i < t.data.length ∧
    (s.data.length = 10 ∨ s.data.length = 12) ∧
    DigitBoundedRunAt t.data i s.data.length ∧
    s.data = (t.data.drop i).take s.data.length ∧
    ∀ j, j < i → ∀ L, (L = 10 ∨ L = 12) → ¬ DigitBoundedRunAt t.data j L

/-- `s` is the leftmost 10- or 12-character digit run of `t` delimited by
word boundaries (string edge or non-word character) — the behaviour the
regex actually implements. -/
def IsLeftmostWordBoundedRun (t s : String) : Prop :=
  ∃ i, i < t.data.length ∧
    (s.data.length = 10 ∨ s.data.length = 12) ∧
    MatchPos none t.data i s.data.length ∧
    s.data = (t.data.drop i).take s.data.length ∧
    ∀ j, j < i → ∀ L, (L = 10 ∨ L = 12) → ¬ MatchPos none t.data j L

instance decMatchPos (prev : Option Char) (cs : List Char) (i L : Nat) :
    Decidable (MatchPos prev cs i L) := by
  unfold MatchPos
  infer_instance

instance decDigitBoundedRunAt (cs : List Char) (i L : Nat) :
    Decidable (DigitBoundedRunAt cs i L) := by
  unfold DigitBoundedRunAt
  infer_instance

/-! ### Bitrix24 OAuth credential lifecycle —
`src/src/integrations/bitrix24/oauth.py` -/

/-- The stored token record, restricted to the fields `_is_token_expired`
and `get_valid_access_token` consult.  `saved_at`/`expires_in` are optional
because the persisted JSON dict may lack those keys; times are Unix
seconds. -/
structure Tokens where
  access_token : String
  saved_at : Option Int
  expires_in : Option Int

/-- Embedding of `BitrixOAuthManager._is_token_expired` (`oauth.py` lines
234-253): a record missing `saved_at` or `expires_in` counts as expired;
otherwise the token counts as expired from 300 seconds (the hard-coded
5-minute margin) before `saved_at + expires_in`. -/
def is_token_expired (t : Tokens) (now : Int) : Bool :=
  match t.saved_at, t.expires_in with
  | some s, some e => decide (s + (e - 300) ≤ now)
  | _, _ => true

def noTokensMsg : String := "No tokens available. Please complete OAuth flow first."

/-- Embedding of `BitrixOAuthManager.get_valid_access_token` (`oauth.py`
lines 172-192).  The stored credential and the outcome of the network
refresh call are passed explicitly; the second component of the result
counts how many times `refresh_access_token` was invoked. -/
def get_valid_access_token (stored : Option Tokens)
    (refreshResult : Except String Tokens) (now : Int) :
    Except String String × Nat :=
  match stored with
  | none => (Except.error noTokensMsg, 0)
  | some t =>
    if is_token_expired t now then
      match refreshResult with
      | Except.error e => (Except.error e, 1)
      | Except.ok t2 => (Except.ok t2.access_token, 1)
    else (Except.ok t.access_token, 0)

def staleTok : String := "stale-access-token"

def refreshFailMsg : String := "refresh failed"

/-- A credential saved at time 0 that expires at time 400. -/
def cred5 : Tokens := Tokens.mk staleTok (some 0) (some 400)

/-! ### Contract risk analysis — `src/src/services/risk_analysis.py`,
with the normalizer of `src/src/services/risk_service.py` -/

/-- Python's `str.strip`/`\s` whitespace, ASCII range. -/
def pyIsSpace (c : Char) : Bool :=
  c == ' ' || c == '\t' || c == '\n' || c == '\r' || c == '\x0b' || c == '\x0c'

/-- Python's `str.lower` for the alphabets this repository handles:
ASCII letters plus the Cyrillic uppercase range А-Я and Ё. -/
def pyToLower (c : Char) : Char :=
  if 1040 ≤ c.toNat ∧ c.toNat ≤ 1071 then Char.ofNat (c.toNat + 32)
  else if c.toNat = 1025 then Char.ofNat 1105
  else c.toLower

def pyLower (s : String) : String := String.mk (s.data.map pyToLower)

/-- Python's `str.strip()`. -/
def pyStrip (s : String) : String :=
  String.mk (((s.data.dropWhile pyIsSpace).reverse.dropWhile pyIsSpace).reverse)

/-- `re.sub(r"\s+", " ", ...)` worker: `inRun` records whether the
previous character belonged to a whitespace run already emitted as one
space. -/
def collapseAux : Bool → List Char → List Char
  | _, [] => []
  | inRun, c :: rest =>
    if pyIsSpace c then
      if inRun then collapseAux true rest
      else ' ' :: collapseAux true rest
    else c :: collapseAux false rest

/-- `re.sub(r"\s+", " ", ...)`: collapse each maximal whitespace run to a
single space. -/
def collapseWS (l : List Char) : List Char := collapseAux false l

/-- Embedding of `RiskAnalysisService._normalize` (`risk_service.py`):
`re.sub(r"\s+", " ", text.strip().lower())`. -/
def normalizeRS (text : String) : String :=
  String.mk (collapseWS (pyLower (pyStrip text)).data)

/-- Is the first list a prefix of the second? -/
def listIsPrefix : List Char → List Char → Bool
  | [], _ => true
  | _ :: _, [] => false
  | a :: as, b :: bs => a == b && listIsPrefix as bs

/-- Does `needle` occur as a contiguous sublist of `hay`? -/
def listContains (needle hay : List Char) : Bool :=
  match hay with
  | [] => needle.isEmpty
  | _ :: rest => listIsPrefix needle hay || listContains needle rest

/-- Python's `needle in hay` on strings. -/
def strContains (hay needle : String) : Bool := listContains needle.data hay.data

/-- `pattern.search(text)` for an `re.IGNORECASE` alternation of lowercase
literal branches: some branch occurs in the lowercased text. -/
def containsAnyCI (text : String) (pats : List String) : Bool :=
  pats.any (fun p => strContains (pyLower text) p)

structure RiskItem where
  risk : String
  consequences : String
  probability : String
  impact : String
  mitigation : String
deriving DecidableEq

structure RiskAnalysisResult where
  items : List RiskItem
  missing_information : List String
deriving DecidableEq

def kwPenaltyRA : List String := [r"неустойк", r"штраф", r"пени"]

def itemPenaltyRA : RiskItem :=
  { risk := "Высокие штрафные санкции",
    consequences := "Рост финансовых потерь при нарушении обязательств",
    probability := "Средняя",
    impact := "Высокое",
    mitigation := "Уточнить лимиты штрафов и предусмотреть сроки устранения нарушений" }

def kwUnilateralRA : List String := [r"односторонн"]

def itemUnilateralRA : RiskItem :=
  { risk := "Одностороннее расторжение",
    consequences := "Контрагент может прекратить договор без компенсаций",
    probability := "Средняя",
    impact := "Среднее",
    mitigation := "Согласовать условия уведомления и компенсации" }

def kwConfRA : List String := [r"конфиденциал", r"персональн", r"gdpr", r"152-фз"]

def itemConfRA : RiskItem :=
  { risk := "Нарушение конфиденциальности/ПДн",
    consequences := "Штрафы регуляторов и репутационные потери",
    probability := "Низкая",
    impact := "Высокое",
    mitigation := "Прописать меры защиты и ответственность сторон" }

def kwDeadlineRA : List String := [r"срок", r"deadline", r"этап"]

def itemDeadlineRA : RiskItem :=
  { risk := "Нереалистичные сроки исполнения",
    consequences := "Срывы обязательств и штрафы",
    probability := "Средняя",
    impact := "Среднее",
    mitigation := "Согласовать реалистичный график и порядок изменения сроков" }

def kwPaymentRA : List String := [r"оплат", r"аванс", r"предоплат"]

def itemPaymentRA : RiskItem :=
  { risk := "Риск невозврата предоплаты",
    consequences := "Потеря денежных средств при расторжении",
    probability := "Средняя",
    impact := "Среднее",
    mitigation := "Определить условия возврата и этапы приемки" }

/-- `KEYWORD_RULES` of `risk_analysis.py`, in declaration order; each
regex is an alternation of lowercase literals. -/
def KEYWORD_RULES : List (List String × RiskItem) :=
  [(kwPenaltyRA, itemPenaltyRA), (kwUnilateralRA, itemUnilateralRA),
    (kwConfRA, itemConfRA), (kwDeadlineRA, itemDeadlineRA),
    (kwPaymentRA, itemPaymentRA)]

def placeholderItem : RiskItem :=
  { risk := "TBD", consequences := "TBD", probability := "TBD",
    impact := "TBD", mitigation := "TBD" }

/-- The five fixed missing-information strings of the short-input branch. -/
def missingFive : List String :=
  [r"полный текст договора", r"сведения о сторонах", r"предмет договора",
    r"условия оплаты", r"сроки исполнения"]

def fallbackItemRA : RiskItem :=
  { risk := "Недостаточно явных рисковых условий",
    consequences := "Нужно подтверждение ключевых условий договора",
    probability := "TBD",
    impact := "TBD",
    mitigation := "Уточнить предмет, оплату, сроки и ответственность" }

def MIN_TEXT_LENGTH : Nat := 200

/-- Embedding of `analyze_contract_risks` (`risk_analysis.py` lines
86-126): guard on the STRIPPED text's length, short branch with the five
fixed missing categories, long branch collecting keyword rule items (with
a generic fallback) and an empty missing-information list. -/
def analyze_contract_risks (text : String) : RiskAnalysisResult :=
  let normalized := pyStrip text
  if normalized.length < MIN_TEXT_LENGTH then
    RiskAnalysisResult.mk [placeholderItem] missingFive
  else
    let items := KEYWORD_RULES.filterMap
      (fun rule => if containsAnyCI normalized rule.1 then some rule.2 else none)
    RiskAnalysisResult.mk (if items = [] then [fallbackItemRA] else items) []

/-- 202 characters whose whitespace-collapsed form has only 3. -/
def padText : String := String.mk ('a' :: (List.replicate 200 ' ' ++ ['b']))

def shortText : String := "короткий текст"

/-! ### Counterparty risk scoring — `src/src/services/scoring_service.py` -/

/-- The `raw_flags` sub-dicts `_detect_mass_flags` consults, reduced to
the three truthiness tests the code performs (`isinstance(..., dict)`
together with a truthy `is_mass` / `liquidation_date` entry). -/
structure RawFlags where
  address_is_mass : Bool
  management_is_mass : Bool
  has_liquidation_date : Bool

/-- `CompanyCard` restricted to the fields `evaluate` reads.  String
fields are `Option String` so that Python's `None` and `""` falsiness is
modelled; `registration_date` is in days (as `_is_too_young` compares at
day granularity). -/
structure CompanyCard where
  status : Option String
  ogrn : Option String
  kpp : Option String
  address : Option String
  registration_date : Option Int
  raw_flags : RawFlags

structure RiskAssessment where
  level : String
  reasons : List String
deriving DecidableEq

/-- Python truthiness of an optional string: `None` and `""` are falsy. -/
def truthyStr : Option String → Bool
  | none => false
  | some s => ! s.isEmpty

/-- Python's `str.upper` for ASCII plus the Cyrillic lowercase range. -/
def pyToUpper (c : Char) : Char :=
  if 1072 ≤ c.toNat ∧ c.toNat ≤ 1103 then Char.ofNat (c.toNat - 32)
  else if c.toNat = 1105 then Char.ofNat 1025
  else c.toUpper

def pyUpper (s : String) : String := String.mk (s.data.map pyToUpper)

def LOW : String := "LOW"

def MEDIUM : String := "MEDIUM"

def HIGH : String := "HIGH"

def statusActive : String := "ACTIVE"

def statusPrefix : String := "Статус компании: "

def missingCriticalMsg : String := "Недостаточно критичных реквизитов (ОГРН/КПП/адрес)"

def tooYoungMsg : String := "Компания зарегистрирована менее 6 месяцев назад"

def massAddressMsg : String := "Отмечен признак массового адреса"

def massDirectorMsg : String := "Отмечен признак массового руководителя"

def liquidationMsg : String := "Обнаружены признаки ликвидации"

def noRiskMsg : String := "Критичных факторов риска не выявлено"

/-- `company.status and company.status.upper() != "ACTIVE"`. -/
def statusBad (c : CompanyCard) : Bool :=
  match c.status with
  | none => false
  | some s => ! s.isEmpty && decide (pyUpper s ≠ statusActive)

def statusText (c : CompanyCard) : String :=
  match c.status with
  | none => ""
  | some s => s

/-- `_is_missing_critical`: `not (ogrn and kpp and address)`. -/
def is_missing_critical (c : CompanyCard) : Bool :=
  ! (truthyStr c.ogrn && truthyStr c.kpp && truthyStr c.address)

/-- `_is_too_young`: a known registration date within the last 180 days. -/
def is_too_young (rd : Option Int) (now : Int) : Bool :=
  match rd with
  | none => false
  | some d => decide (now - 180 ≤ d)

/-- `_detect_mass_flags`, in the source's check order. -/
def detect_mass_flags (f : RawFlags) : List String :=
  (if f.address_is_mass then [massAddressMsg] else []) ++
    (if f.management_is_mass then [massDirectorMsg] else []) ++
    (if f.has_liquidation_date then [liquidationMsg] else [])

/-- The order dict of `_raise_level`: LOW 1, MEDIUM 2, HIGH 3. -/
def levelOrder (s : String) : Nat :=
  if s = HIGH then 3 else if s = MEDIUM then 2 else if s = LOW then 1 else 0

/-- `_raise_level`: candidate replaces current only when strictly higher. -/
def raise_level (current candidate : String) : String :=
  if levelOrder current < levelOrder candidate then candidate else current

/-- Rule 1 of `evaluate`: non-active status appends a reason and ASSIGNS
level HIGH (direct assignment in the source, not `_raise_level`). -/
def step1 (c : CompanyCard) (st : List String × String) : List String × String :=
  if statusBad c then (st.1 ++ [statusPrefix ++ statusText c], HIGH) else st

/-- Rule 2: missing critical requisites raise to MEDIUM. -/
def step2 (c : CompanyCard) (st : List String × String) : List String × String :=
  if is_missing_critical c then (st.1 ++ [missingCriticalMsg], raise_level st.2 MEDIUM)
  else st

/-- Rule 3: registration within 180 days raises to MEDIUM. -/
def step3 (c : CompanyCard) (now : Int) (st : List String × String) :
    List String × String :=
  if is_too_young c.registration_date now then
    (st.1 ++ [tooYoungMsg], raise_level st.2 MEDIUM)
  else st

/-- Rule 4: mass-registration flags extend the reasons and raise to MEDIUM
when any flag fired. -/
def step4 (c : CompanyCard) (st : List String × String) : List String × String :=
  let m := detect_mass_flags c.raw_flags
  if m ≠ [] then (st.1 ++ m, raise_level st.2 MEDIUM) else st

/-- Embedding of `RiskScoringService.evaluate` (`scoring_service.py` lines
27-58): the four rules in source order starting from `(reasons, level) =
([], LOW)`, then the no-risk fallback reason. -/
def evaluate (c : CompanyCard) (now : Int) : RiskAssessment :=
  let st := step4 c (step3 c now (step2 c (step1 c ([], LOW))))
  RiskAssessment.mk st.2 (if st.1 = [] then [noRiskMsg] else st.1)

/-- The (reasons, level) states after each of the four rules of one
`evaluate` call. -/
def evalStates (c : CompanyCard) (now : Int) : List (List String × String) :=
  let s0 : List String × String := ([], LOW)
  let s1 := step1 c s0
  let s2 := step2 c s1
  let s3 := step3 c now s2
  let s4 := step4 c s3
  [s0, s1, s2, s3, s4]

def ogrnSample : String := "1027700132195"

def kppSample : String := "770701001"

def addrSample : String := "Москва"

/-- A fully populated, active, 1000-day-old company with no flags. -/
def cleanCard : CompanyCard :=
  CompanyCard.mk (some statusActive) (some ogrnSample) (some kppSample)
    (some addrSample) (some 0) (RawFlags.mk false false false)

/-! ### Scenario router — `src/src/router/index.py` -/

inductive Scenario where
  | LEGAL_DOCUMENT_STRUCTURING
  | DISPUTE_PREPARATION
  | LEGAL_OPINION
  | CLIENT_EXPLANATION
  | CLAIM_RESPONSE
  | BUSINESS_CONTEXT
  | CONTRACT_AGENT_RF
  | RISK_TABLE
  | CASE_LAW_ANALYTICS
  | DADATA_CARD
deriving DecidableEq

/-- The scenarios of `HARD_GATES` in dict insertion order — the order
`route` iterates the compiled gates in CPython. -/
def gateOrder : List Scenario :=
  [Scenario.DADATA_CARD, Scenario.RISK_TABLE, Scenario.CLAIM_RESPONSE,
    Scenario.LEGAL_OPINION, Scenario.CASE_LAW_ANALYTICS,
    Scenario.DISPUTE_PREPARATION, Scenario.CONTRACT_AGENT_RF,
    Scenario.BUSINESS_CONTEXT, Scenario.LEGAL_DOCUMENT_STRUCTURING]

/-- How many regex patterns each scenario's hard gate declares. -/
def numPatterns : Scenario → Nat
  | Scenario.DADATA_CARD => 4
  | Scenario.RISK_TABLE => 3
  | Scenario.CLAIM_RESPONSE => 3
  | Scenario.LEGAL_OPINION => 3
  | Scenario.CASE_LAW_ANALYTICS => 3
  | Scenario.DISPUTE_PREPARATION => 3
  | Scenario.CONTRACT_AGENT_RF => 2
  | Scenario.BUSINESS_CONTEXT => 3
  | Scenario.LEGAL_DOCUMENT_STRUCTURING => 2
  | Scenario.CLIENT_EXPLANATION => 0

/-- `pattern.search(text_lower)` for the j-th pattern of a scenario's hard
gate, abstracted as an oracle: the gate regexes themselves stay outside
the embedding and `route`'s control flow is verified for every oracle. -/
def anyGateMatch (patMatch : Scenario → Nat → String → Bool) (sc : Scenario)
    (t : String) : Bool :=
  (List.range (numPatterns sc)).any (fun j => patMatch sc j t)

/-- The optional `context` dict, reduced to the two keys `route` reads. -/
structure RouteContext where
  has_file : Bool
  has_company_info : Bool

def ctxHasFile : Option RouteContext → Bool
  | none => false
  | some c => c.has_file

def ctxHasCompany : Option RouteContext → Bool
  | none => false
  | some c => c.has_company_info

/-- The soft-scoring keyword table of `_calculate_scenario_scores`, in
dict insertion order. -/
def keywordTable : List (Scenario × List String) :=
  [(Scenario.RISK_TABLE, [r"риск", r"опасност", r"проблем", r"анализ договора"]),
    (Scenario.CONTRACT_AGENT_RF, [r"договор", r"контракт", r"соглашение", r"гк рф"]),
    (Scenario.CLAIM_RESPONSE, [r"претензия", r"требование", r"ответ"]),
    (Scenario.LEGAL_OPINION, [r"заключение", r"мнение", r"позиция", r"оценка"]),
    (Scenario.CASE_LAW_ANALYTICS, [r"практика", r"суд", r"решение", r"постановление"]),
    (Scenario.DISPUTE_PREPARATION, [r"спор", r"конфликт", r"аргумент", r"доказательств"]),
    (Scenario.BUSINESS_CONTEXT, [r"письмо", r"ответ", r"переписка"]),
    (Scenario.LEGAL_DOCUMENT_STRUCTURING, [r"структура", r"разбор", r"анализ"])]

/-- One scenario's soft score: +0.2 per keyword contained in the text,
+0.1 per context bonus, reset to 0 when no keyword matched. -/
def scenarioScore (text : String) (ctx : Option RouteContext)
    (words : List String) : ℚ :=
  let matchCount := (words.filter (fun w => strContains text w)).length
  let score : ℚ := matchCount * (1 / 5)
  let score := score + (if ctxHasFile ctx then 1 / 10 else 0)
  let score := score + (if ctxHasCompany ctx then 1 / 10 else 0)
  if matchCount = 0 then 0 else score

/-- Embedding of `Router._calculate_scenario_scores` (`router/index.py`
lines 132-184): scenarios with positive score, in table order. -/
def calculateScenarioScores (text : String) (ctx : Option RouteContext) :
    List (Scenario × ℚ) :=
  keywordTable.filterMap (fun p =>
    let score := scenarioScore text ctx p.2
    if 0 < score then some (p.1, score) else none)

/-- `sorted(scores.items(), key=..., reverse=True)`: a stable descending
sort (insertion sort with ≥ keeps insertion order among equal scores,
like Python's stable sort). -/
def sortedScores (text : String) (ctx : Option RouteContext) :
    List (Scenario × ℚ) :=
  List.insertionSort (fun a b => b.2 ≤ a.2) (calculateScenarioScores text ctx)

/-- Embedding of `Router.route` (`router/index.py` lines 88-130): empty
guard, hard gates in declared order at fixed confidence 0.95, then soft
scoring with the 0.15-ambiguity penalty ×0.8 and the upper clamp. -/
def route (patMatch : Scenario → Nat → String → Bool) (text : String)
    (ctx : Option RouteContext) : Scenario × ℚ :=
  if text.isEmpty then (Scenario.LEGAL_DOCUMENT_STRUCTURING, 0)
  else
    let tl := pyLower text
    match gateOrder.find? (fun sc => anyGateMatch patMatch sc tl) with
    | some sc => (sc, 19 / 20)
    | none =>
      match sortedScores tl ctx with
      | [] => (Scenario.LEGAL_DOCUMENT_STRUCTURING, 3 / 10)
      | (bs, bsc) :: rest =>
        let bsc' := match rest with
          | [] => bsc
          | (_, ssc) :: _ => if bsc - ssc < 3 / 20 then bsc * (4 / 5) else bsc
        (bs, min bsc' 1)

/-- An oracle under which no hard-gate pattern matches any text. -/
def oracleNone : Scenario → Nat → String → Bool := fun _ _ _ => false

def innWord : String := r"инн"

/-- An oracle for texts containing `инн`: exactly the DaData gate's first
pattern `\b(инн|огрн)\b` fires. -/
def oracleDadata : Scenario → Nat → String → Bool := fun sc j t =>
  decide (sc = Scenario.DADATA_CARD) && decide (j = 0) && strContains t innWord

def dadataText : String := "инн 7707083893"

def zzzText : String := "zzz"

def emptyText : String := ""

def otvetText : String := "ответ"

def tConf : String := "a1234567890 9876543210"

def innSecond : String := "9876543210"

def tWitness : String := "inn 7707083893 x"

end Ewabot

namespace Ewabot

/-- C2: `validate_inn` accepts exactly the 10- or 12-digit strings whose
positional checksums hold, and the concrete vectors behave as specified:
`validate_inn "7707083893" = true`, `validate_inn "7707083892" = false`. -/
theorem C2_validate_inn_checksum :
    (∀ s : String, validate_inn s = true ↔ ValidInnSpec s) ∧
    validate_inn innGood = true ∧ validate_inn innBad = false := by
  refine ⟨fun s => ?_, by decide, by decide⟩
  simp only [validate_inn, ValidInnSpec]
  by_cases h10 : s.length = 10
  · have h12 : ¬ s.length = 12 := by omega
    by_cases hd : ∀ c ∈ s.data, c.isDigit = true
    · simp [String.toList, h10, h12, hd]
    · simp [String.toList, h10, h12, hd, List.all_eq_true]
  · by_cases h12 : s.length = 12
    · by_cases hd : ∀ c ∈ s.data, c.isDigit = true
      · simp [String.toList, h10, h12, hd]
      · simp [String.toList, h10, h12, hd, List.all_eq_true]
    · simp [String.toList, h10, h12]

lemma runMatch_eq_true (bOk : Bool) (cs : List Char) (n : Nat) :
    runMatch bOk cs n = true ↔
      (bOk = true ∧ n ≤ cs.length ∧
        (∀ k, k < n → (charAt cs k).isDigit = true) ∧
        (n = cs.length ∨ isWordChar (charAt cs n) = false)) := by
  simp [runMatch, List.all_eq_true, Bool.not_eq_true']
  tauto

lemma matchPos_zero (prev : Option Char) (cs : List Char) (L : Nat) :
    MatchPos prev cs 0 L ↔ runMatch (prevOk prev) cs L = true := by
  rw [runMatch_eq_true]
  simp [MatchPos]
  tauto

lemma charAt_cons_succ (c : Char) (cs : List Char) (n : Nat) :
    charAt (c :: cs) (n + 1) = charAt cs n := by
  simp [charAt]

lemma matchPos_cons (prev : Option Char) (c : Char) (cs : List Char)
    (i L : Nat) : MatchPos prev (c :: cs) (i + 1) L ↔ MatchPos (some c) cs i L := by
  have hAt : ∀ n : Nat, charAt (c :: cs) (n + 1) = charAt cs n := charAt_cons_succ c cs
  cases i with
  | zero =>
    simp only [MatchPos, List.length_cons, if_neg (Nat.succ_ne_zero 0),
      if_pos rfl, Nat.zero_add]
    have h1 : ∀ k : Nat, 1 + k = k + 1 := fun k => by omega
    have h2 : ∀ k : Nat, 0 + k = k := fun k => by omega
    simp only [h1, h2, hAt]
    constructor
    · rintro ⟨hb, hdig, hprev, htail⟩
      refine ⟨by omega, hdig, ?_, ?_⟩
      · show prevOk (some c) = true
        have : charAt (c :: cs) 0 = c := by simp [charAt]
        rw [this] at hprev
        simp [prevOk, hprev]
      · rcases htail with h | h
        · exact Or.inl (by omega)
        · exact Or.inr h
    · rintro ⟨hb, hdig, hprev, htail⟩
      refine ⟨by omega, hdig, ?_, ?_⟩
      · have : charAt (c :: cs) 0 = c := by simp [charAt]
        rw [this]
        simp only [prevOk, Bool.not_eq_true'] at hprev
        exact hprev
      · rcases htail with h | h
        · exact Or.inl (by omega)
        · exact Or.inr h
  | succ i' =>
    simp only [MatchPos, List.length_cons, if_neg (Nat.succ_ne_zero (i' + 1)),
      if_neg (Nat.succ_ne_zero i')]
    have h1 : ∀ k : Nat, i' + 1 + 1 + k = (i' + 1 + k) + 1 := fun k => by omega
    have h2 : i' + 1 + 1 + L = (i' + 1 + L) + 1 := by omega
    have h3 : i' + 1 + 1 - 1 = i' + 1 := by omega
    have h4 : i' + 1 - 1 = i' := by omega
    simp only [h1, h2, h3, h4, hAt]
    constructor
    · rintro ⟨hb, hdig, hprev, htail⟩
      refine ⟨by omega, hdig, hprev, ?_⟩
      rcases htail with h | h
      · exact Or.inl (by omega)
      · exact Or.inr h
    · rintro ⟨hb, hdig, hprev, htail⟩
      refine ⟨by omega, hdig, hprev, ?_⟩
      rcases htail with h | h
      · exact Or.inl (by omega)
      · exact Or.inr h

lemma scanInn_sound (cs : List Char) :
    ∀ (prev : Option Char) (l : List Char), scanInn prev cs = some l →
    ∃ i, i < cs.length ∧ ∃ L, (L = 10 ∨ L = 12) ∧ MatchPos prev cs i L ∧
      l = (cs.drop i).take L ∧
      ∀ j, j < i → ∀ L', (L' = 10 ∨ L' = 12) → ¬ MatchPos prev cs j L' := by
  induction cs with
  | nil => intro prev l h; simp [scanInn] at h
  | cons c rest ih =>
    intro prev l h
    rw [scanInn] at h
    by_cases h10 : runMatch (prevOk prev) (c :: rest) 10 = true
    · rw [if_pos h10] at h
      refine ⟨0, by simp, 10, Or.inl rfl, (matchPos_zero prev (c :: rest) 10).2 h10,
        ?_, fun j hj => absurd hj (by omega)⟩
      simpa using (Option.some.inj h).symm
    · by_cases h12 : runMatch (prevOk prev) (c :: rest) 12 = true
      · rw [if_neg h10, if_pos h12] at h
        refine ⟨0, by simp, 12, Or.inr rfl, (matchPos_zero prev (c :: rest) 12).2 h12,
          ?_, fun j hj => absurd hj (by omega)⟩
        simpa using (Option.some.inj h).symm
      · rw [if_neg h10, if_neg h12] at h
        obtain ⟨i, hi, L, hL, hmp, hl, hleft⟩ := ih (some c) l h
        refine ⟨i + 1, by simpa using Nat.succ_lt_succ hi, L, hL,
          (matchPos_cons prev c rest i L).2 hmp, by simpa using hl, ?_⟩
        intro j hj L' hL' hmp'
        cases j with
        | zero =>
          have := (matchPos_zero prev (c :: rest) L').1 hmp'
          rcases hL' with rfl | rfl
          · exact h10 this
          · exact h12 this
        | succ j' =>
          exact hleft j' (by omega) L' hL' ((matchPos_cons prev c rest j' L').1 hmp')

lemma mem_take_drop_digit (cs : List Char) (i L : Nat) (hb : i + L ≤ cs.length)
    (hd : ∀ k, k < L → (charAt cs (i + k)).isDigit = true) :
    ∀ c ∈ (cs.drop i).take L, c.isDigit = true := by
  intro c hc
  obtain ⟨k, hk, hkc⟩ := List.mem_iff_getElem.mp hc
  have hk1 : k < L := by
    have := hk
    simp [List.length_take, List.length_drop] at this
    omega
  have hk2 : i + k < cs.length := by omega
  have hval : ((cs.drop i).take L)[k] = cs[i + k] := by
    rw [List.getElem_take, List.getElem_drop]
  have hcharAt : charAt cs (i + k) = cs[i + k] := by
    simp [charAt, List.getD, List.getElem?_eq_getElem hk2]
  rw [← hkc, hval, ← hcharAt]
  exact hd k hk1

/-- C10 (amended): whenever `extract_inn` returns a string, it is 10 or 12
ASCII digits (so it passes `is_valid_inn`'s length-and-digits check), and
it is the leftmost 10- or 12-digit run delimited by WORD boundaries
(string edge or a character that is not a letter, digit or underscore) —
not by arbitrary non-digit boundaries. -/
theorem C10_extract_inn_output (t s : String) (h : extract_inn t = some s) :
    is_valid_inn s = true ∧ (∀ c ∈ s.data, c.isDigit = true) ∧
      (s.length = 10 ∨ s.length = 12) ∧ IsLeftmostWordBoundedRun t s := by
  unfold extract_inn at h
  cases hscan : scanInn none t.toList with
  | none => exact Option.noConfusion (hscan ▸ h)
  | some l =>
    simp only [hscan] at h
    by_cases hlen : l.length = 10 ∨ l.length = 12
    · rw [if_pos hlen] at h
      have hs : s = String.mk l := (Option.some.inj h).symm
      subst hs
      obtain ⟨i, hi, L, hL, hmp, hl, hleft⟩ := scanInn_sound t.toList none l hscan
      have hdata : (String.mk l).data = l := rfl
      have hLlen : l.length = L := by
        subst hl
        have h1 := hmp.1
        simp [List.length_take, List.length_drop]
        simp [String.toList] at h1 hi
        omega
      have hdig : ∀ c ∈ l, c.isDigit = true := by
        subst hl
        exact mem_take_drop_digit t.data i L (by simpa [String.toList] using hmp.1)
          (fun k hk => hmp.2.1 k hk)
      have hne : l ≠ [] := by
        intro hnil
        rw [hnil] at hlen
        simp at hlen
      refine ⟨?_, ?_, ?_, ?_⟩
      · simp only [is_valid_inn, String.toList, hdata]
        rw [if_neg hne]
        rw [if_neg (by simp [List.all_eq_true]; exact fun c hc => hdig c hc)]
        simpa using hlen
      · simpa [hdata] using hdig
      · exact hlen
      · refine ⟨i, by simpa [String.toList] using hi, ?_, ?_, ?_, ?_⟩
        · simpa [hdata, hLlen] using hL
        · show MatchPos none t.data i (String.mk l).data.length
          rw [hdata, hLlen]
          simpa [String.toList] using hmp
        · show (String.mk l).data = (t.data.drop i).take (String.mk l).data.length
          rw [hdata, hLlen]
          simpa [String.toList] using hl
        · intro j hj L' hL'
          have := hleft j hj L' hL'
          simpa [String.toList] using this
    · rw [if_neg hlen] at h; cases h

/-- C10 witness: on a concrete text the extractor returns the known INN and
the amended characterisation holds. -/
theorem C10_extract_inn_output_witness :
    is_valid_inn innGood = true ∧ (∀ c ∈ innGood.data, c.isDigit = true) ∧
      (innGood.length = 10 ∨ innGood.length = 12) ∧
      IsLeftmostWordBoundedRun tWitness innGood :=
  C10_extract_inn_output tWitness innGood (by decide)

/-- C10 counterexample: on `"a1234567890 9876543210"` the extractor skips
the first ten-digit run (its left neighbour `a` is a word character, so the
regex `\b` fails there) and returns the second run — so the returned string
is NOT the leftmost digit run delimited by non-digit boundaries, refuting
the claim as stated. -/
theorem C10_counterexample :
    extract_inn tConf = some innSecond ∧
      ¬ IsLeftmostDigitBoundedRun tConf innSecond := by
  constructor
  · decide
  · intro hrun
    obtain ⟨i, hi, hlen, hat, heq, hleft⟩ := hrun
    have h1 : DigitBoundedRunAt tConf.data 1 10 := by decide
    have hi12 : i = 12 := by
      by_contra hne
      have hi' : i < 22 := by simpa using hi
      interval_cases i
      all_goals first
        | exact absurd rfl hne
        | (revert hat heq; decide)
    subst hi12
    exact hleft 1 (by omega) 10 (Or.inl rfl) h1

lemma find?_first (p : Scenario → Bool) (l₁ l₂ : List Scenario) (a : Scenario)
    (h₁ : ∀ x ∈ l₁, p x = false) (ha : p a = true) :
    (l₁ ++ a :: l₂).find? p = some a := by
  induction l₁ with
  | nil =>
    simp only [List.nil_append]
    exact List.find?_cons_of_pos l₂ ha
  | cons b l ih =>
    have hb : p b = false := h₁ b (List.mem_cons_self b l)
    rw [List.cons_append, List.find?_cons_of_neg]
    · exact ih (fun x hx => h₁ x (List.mem_cons_of_mem b hx))
    · simp [hb]

lemma calculateScenarioScores_pos (text : String) (ctx : Option RouteContext) :
    ∀ p ∈ calculateScenarioScores text ctx, 0 < p.2 := by
  intro p hp
  simp only [calculateScenarioScores, List.mem_filterMap] at hp
  obtain ⟨a, _, hstep⟩ := hp
  split at hstep
  case isTrue h =>
    cases hstep
    exact h
  case isFalse h => exact Option.noConfusion hstep

lemma sortedScores_pos (text : String) (ctx : Option RouteContext) :
    ∀ p ∈ sortedScores text ctx, 0 < p.2 := fun p hp =>
  calculateScenarioScores_pos text ctx p
    ((List.perm_insertionSort _ _).mem_iff.mp hp)

/-- C3: whenever the text is non-empty and some hard-gate pattern matches
the lowercased text, `route` returns the first scenario in declared gate
order with a matching pattern, with confidence exactly 0.95 — soft scores
are never consulted — and hence confidence at least 0.9. -/
theorem C3_route_hard_gate (patMatch : Scenario → Nat → String → Bool)
    (text : String) (ctx : Option RouteContext) (sc : Scenario)
    (l₁ l₂ : List Scenario) (hne : text.isEmpty = false)
    (hdecomp : gateOrder = l₁ ++ sc :: l₂)
    (hskip : ∀ s ∈ l₁, anyGateMatch patMatch s (pyLower text) = false)
    (hmatch : anyGateMatch patMatch sc (pyLower text) = true) :
    route patMatch text ctx = (sc, 19 / 20) ∧
      (9 / 10 : ℚ) ≤ (route patMatch text ctx).2 := by
  have hfind : gateOrder.find?
      (fun s => anyGateMatch patMatch s (pyLower text)) = some sc := by
    rw [hdecomp]
    exact find?_first _ l₁ l₂ sc hskip hmatch
  have hroute : route patMatch text ctx = (sc, 19 / 20) := by
    simp [route, hne, hfind]
  refine ⟨hroute, ?_⟩
  rw [hroute]
  norm_num

/-- C3 witness: a lowercase query naming an INN fires the DaData gate (its
first pattern, `\b(инн|огрн)\b`) and is routed there with confidence
0.95. -/
theorem C3_route_hard_gate_witness :
    route oracleDadata dadataText none = (Scenario.DADATA_CARD, 19 / 20) ∧
      (9 / 10 : ℚ) ≤ (route oracleDadata dadataText none).2 :=
  C3_route_hard_gate oracleDadata dadataText none Scenario.DADATA_CARD []
    [Scenario.RISK_TABLE, Scenario.CLAIM_RESPONSE, Scenario.LEGAL_OPINION,
      Scenario.CASE_LAW_ANALYTICS, Scenario.DISPUTE_PREPARATION,
      Scenario.CONTRACT_AGENT_RF, Scenario.BUSINESS_CONTEXT,
      Scenario.LEGAL_DOCUMENT_STRUCTURING]
    (by decide) (by decide) (by simp) (by decide)

/-- C4 counterexample: for the non-empty text `"zzz"` no hard gate matches
and no scenario scores above zero, yet `route` returns the default
scenario with confidence 0.3, not 0.0 — the 0.0 confidence is reserved
for empty input. -/
theorem C4_counterexample :
    calculateScenarioScores (pyLower zzzText) none = [] ∧
      route oracleNone zzzText none =
        (Scenario.LEGAL_DOCUMENT_STRUCTURING, 3 / 10) ∧
      (route oracleNone zzzText none).2 ≠ 0 := by
  refine ⟨by decide, by with_unfolding_all decide, by with_unfolding_all decide⟩

/-- C4 (amended): empty input returns the fixed default scenario with
confidence exactly 0.0; non-empty input with no hard-gate match and no
scenario scoring above zero returns the default scenario with confidence
0.3. -/
theorem C4_route_empty_and_no_scores (patMatch : Scenario → Nat → String → Bool)
    (text : String) (ctx : Option RouteContext) :
    (text.isEmpty = true →
      route patMatch text ctx = (Scenario.LEGAL_DOCUMENT_STRUCTURING, 0)) ∧
    (text.isEmpty = false →
      gateOrder.find? (fun s => anyGateMatch patMatch s (pyLower text)) = none →
      calculateScenarioScores (pyLower text) ctx = [] →
      route patMatch text ctx = (Scenario.LEGAL_DOCUMENT_STRUCTURING, 3 / 10)) := by
  constructor
  · intro h
    simp [route, h]
  · intro hne hfind hsc
    simp [route, hne, hfind, sortedScores, hsc, List.insertionSort]

/-- C4 witness: both branches of the amended claim at concrete inputs. -/
theorem C4_route_empty_and_no_scores_witness :
    route oracleNone emptyText none = (Scenario.LEGAL_DOCUMENT_STRUCTURING, 0) ∧
      route oracleNone zzzText none =
        (Scenario.LEGAL_DOCUMENT_STRUCTURING, 3 / 10) :=
  ⟨(C4_route_empty_and_no_scores oracleNone emptyText none).1 (by decide),
    (C4_route_empty_and_no_scores oracleNone zzzText none).2
      (by decide) (by decide) (by decide)⟩

/-- C8: in soft scoring, when a second-best scenario lies strictly within
0.15 of the best, `route` returns the best scenario with its score
multiplied by 0.8; and for EVERY outcome of `route` — in particular every
soft-scoring outcome, with or without a near second-best, including the
single-scenario and empty-score cases — the returned confidence lies in
[0, 1]. -/
theorem C8_route_soft_penalty_and_clamp
    (patMatch : Scenario → Nat → String → Bool) (text : String)
    (ctx : Option RouteContext) :
    (∀ (bs ss : Scenario) (bsc ssc : ℚ) (rest : List (Scenario × ℚ)),
      text.isEmpty = false →
      gateOrder.find? (fun s => anyGateMatch patMatch s (pyLower text)) = none →
      sortedScores (pyLower text) ctx = (bs, bsc) :: (ss, ssc) :: rest →
      bsc - ssc < 3 / 20 →
      route patMatch text ctx = (bs, min (bsc * (4 / 5)) 1)) ∧
    (0 ≤ (route patMatch text ctx).2 ∧ (route patMatch text ctx).2 ≤ 1) := by
  constructor
  · intro bs ss bsc ssc rest hne hfind hsorted hclose
    simp [route, hne, hfind, hsorted, hclose]
  · by_cases hemp : text.isEmpty = true
    · have hroute : route patMatch text ctx =
          (Scenario.LEGAL_DOCUMENT_STRUCTURING, 0) := by
        simp [route, hemp]
      rw [hroute]
      norm_num
    · have hne : text.isEmpty = false := by simpa using hemp
      cases hfind : gateOrder.find?
          (fun s => anyGateMatch patMatch s (pyLower text)) with
      | some sc =>
        have hroute : route patMatch text ctx = (sc, 19 / 20) := by
          simp [route, hne, hfind]
        rw [hroute]
        norm_num
      | none =>
        cases hsorted : sortedScores (pyLower text) ctx with
        | nil =>
          have hroute : route patMatch text ctx =
              (Scenario.LEGAL_DOCUMENT_STRUCTURING, 3 / 10) := by
            simp [route, hne, hfind, hsorted]
          rw [hroute]
          norm_num
        | cons b rest =>
          obtain ⟨bs, bsc⟩ := b
          have hbsc : 0 < bsc := by
            have hmem : (bs, bsc) ∈ sortedScores (pyLower text) ctx := by
              rw [hsorted]
              exact List.mem_cons_self _ _
            exact sortedScores_pos (pyLower text) ctx (bs, bsc) hmem
          cases rest with
          | nil =>
            have hroute : route patMatch text ctx = (bs, min bsc 1) := by
              simp [route, hne, hfind, hsorted]
            rw [hroute]
            exact ⟨le_min hbsc.le (by norm_num), min_le_right _ _⟩
          | cons s2 rest2 =>
            obtain ⟨ss, ssc⟩ := s2
            by_cases hclose : bsc - ssc < 3 / 20
            · have hroute : route patMatch text ctx =
                  (bs, min (bsc * (4 / 5)) 1) := by
                simp [route, hne, hfind, hsorted, hclose]
              rw [hroute]
              exact ⟨le_min (mul_nonneg hbsc.le (by norm_num)) (by norm_num),
                min_le_right _ _⟩
            · have hroute : route patMatch text ctx = (bs, min bsc 1) := by
                simp [route, hne, hfind, hsorted, hclose]
              rw [hroute]
              exact ⟨le_min hbsc.le (by norm_num), min_le_right _ _⟩

/-- C8 witness: the text `"ответ"` gives both the claim-response and the
business-context scenarios a soft score of 0.2; the tie (difference 0 <
0.15) triggers the ×0.8 penalty and the result 0.16 lies in [0, 1]. -/
theorem C8_route_soft_penalty_and_clamp_witness :
    route oracleNone otvetText none =
        (Scenario.CLAIM_RESPONSE, min ((1 / 5 : ℚ) * (4 / 5)) 1) ∧
      0 ≤ (route oracleNone otvetText none).2 ∧
      (route oracleNone otvetText none).2 ≤ 1 :=
  ⟨(C8_route_soft_penalty_and_clamp oracleNone otvetText none).1
      Scenario.CLAIM_RESPONSE Scenario.BUSINESS_CONTEXT (1 / 5) (1 / 5) []
      (by decide) (by decide) (by with_unfolding_all decide) (by norm_num),
    (C8_route_soft_penalty_and_clamp oracleNone otvetText none).2⟩

/-- C1: during one `evaluate` call the level never decreases (each rule at
most escalates LOW→MEDIUM→HIGH), and the final level is LOW iff no rule
triggered, in which case the reasons are exactly the single no-risk
message. -/
theorem C1_evaluate_monotone_low_iff (c : CompanyCard) (now : Int) :
    List.Chain' (fun a b => levelOrder a.2 ≤ levelOrder b.2) (evalStates c now) ∧
    ((evaluate c now).level = LOW ↔
      (statusBad c = false ∧ is_missing_critical c = false ∧
        is_too_young c.registration_date now = false ∧
        detect_mass_flags c.raw_flags = [])) ∧
    (statusBad c = false → is_missing_critical c = false →
      is_too_young c.registration_date now = false →
      detect_mass_flags c.raw_flags = [] →
      (evaluate c now).reasons = [noRiskMsg]) := by
  cases h1 : statusBad c <;>
    cases h2 : is_missing_critical c <;>
      cases h3 : is_too_young c.registration_date now <;>
        rcases h4 : detect_mass_flags c.raw_flags with _ | ⟨m, ms⟩ <;>
          simp [evalStates, evaluate, step1, step2, step3, step4, h1, h2, h3, h4,
            raise_level, levelOrder, LOW, MEDIUM, HIGH]

/-- C1 witness: a complete active company triggers no rule; the level is
LOW and the reasons are exactly the no-risk message. -/
theorem C1_evaluate_monotone_low_iff_witness :
    (evaluate cleanCard 1000).level = LOW ∧
      (evaluate cleanCard 1000).reasons = [noRiskMsg] :=
  ⟨((C1_evaluate_monotone_low_iff cleanCard 1000).2.1).2
      ⟨by decide, by decide, by decide, by decide⟩,
    (C1_evaluate_monotone_low_iff cleanCard 1000).2.2
      (by decide) (by decide) (by decide) (by decide)⟩

set_option maxRecDepth 8000 in
/-- C7 counterexample: `padText` (`"a"`, 200 spaces, `"b"`) has a
lowercased/collapsed/trimmed normal form of 3 characters — under the
claim's premise — yet `analyze_contract_risks` takes the long-input
branch, because the code guards on the STRIPPED length (202), and returns
no missing categories at all instead of the five fixed strings. -/
theorem C7_counterexample :
    (normalizeRS padText).length < 200 ∧
      analyze_contract_risks padText =
        RiskAnalysisResult.mk [fallbackItemRA] [] := by
  constructor
  · decide
  · decide

/-- C7 (amended): for every text whose STRIPPED form (leading and trailing
whitespace removed, no lowercasing or whitespace collapsing) is shorter
than 200 characters, `analyze_contract_risks` returns exactly one
placeholder item and exactly the five fixed missing-category strings. -/
theorem C7_analyze_short_input (text : String)
    (h : (pyStrip text).length < 200) :
    analyze_contract_risks text =
      RiskAnalysisResult.mk [placeholderItem] missingFive := by
  simp only [analyze_contract_risks]
  rw [if_pos (by simpa [MIN_TEXT_LENGTH] using h)]

/-- C7 witness: the spec's own example input. -/
theorem C7_analyze_short_input_witness :
    analyze_contract_risks shortText =
      RiskAnalysisResult.mk [placeholderItem] missingFive :=
  C7_analyze_short_input shortText (by decide)

/-- C9: for every text whose stripped length is at least 200 characters,
the result's missing-information list is empty — missing categories are
reported only by the short-input branch, even when no keyword detector
fires and only the generic fallback item is produced. -/
theorem C9_analyze_long_input_no_missing (text : String)
    (h : 200 ≤ (pyStrip text).length) :
    (analyze_contract_risks text).missing_information = [] := by
  have h' : ¬ (pyStrip text).length < MIN_TEXT_LENGTH := by
    simp only [MIN_TEXT_LENGTH]
    omega
  simp only [analyze_contract_risks]
  rw [if_neg h']

set_option maxRecDepth 8000 in
/-- C9 witness: the 202-character padded text takes the long branch and
reports no missing categories. -/
theorem C9_analyze_long_input_no_missing_witness :
    (analyze_contract_risks padText).missing_information = [] :=
  C9_analyze_long_input_no_missing padText (by decide)

/-- C5 counterexample: a credential saved at 0 with `expires_in = 400`
(so `expiresAt = 400`) is reported expired at `now = 150`, although with
the claimed 60-second buffer `now ≥ expiresAt - 60` is false — the code
uses a hard-coded 300-second margin, not 60. -/
theorem C5_counterexample :
    is_token_expired cred5 150 = true ∧ ¬ ((0 + 400 - 60 : Int) ≤ 150) := by
  decide

/-- C5 (amended): `_is_token_expired(c, now)` — there is no buffer
parameter — is true iff `saved_at` or `expires_in` is missing, or
`now >= saved_at + expires_in - 300`, i.e. a fixed 300-second buffer
before `expiresAt = saved_at + expires_in`. -/
theorem C5_is_token_expired_iff (t : Tokens) (now : Int) :
    is_token_expired t now = true ↔
      (t.saved_at = none ∨ t.expires_in = none ∨
        ∃ s e, t.saved_at = some s ∧ t.expires_in = some e ∧
          s + e - 300 ≤ now) := by
  cases hs : t.saved_at with
  | none => simp [is_token_expired, hs]
  | some s =>
    cases he : t.expires_in with
    | none => simp [is_token_expired, hs, he]
    | some e =>
      simp only [is_token_expired, hs, he, Option.some.injEq, decide_eq_true_eq]
      constructor
      · intro h
        refine Or.inr (Or.inr ⟨s, e, rfl, rfl, by omega⟩)
      · rintro (h | h | ⟨s', e', rfl, he', h⟩)
        · exact absurd h (by simp)
        · exact absurd h (by simp)
        · subst he'
          omega

/-- C6: for a single sequential caller with a stored credential,
`get_valid_access_token` invokes the refresh exactly once when the
credential is expired and zero times when not; a failed refresh propagates
its error, and when the credential is expired the stale access token is
never returned — any successful result comes from the refreshed
credential. -/
theorem C6_get_valid_access_token_refresh (t : Tokens)
    (r : Except String Tokens) (now : Int) :
    (is_token_expired t now = true →
      (get_valid_access_token (some t) r now).2 = 1) ∧
    (is_token_expired t now = false →
      get_valid_access_token (some t) r now = (Except.ok t.access_token, 0)) ∧
    (∀ e, is_token_expired t now = true → r = Except.error e →
      (get_valid_access_token (some t) r now).1 = Except.error e) ∧
    (∀ s, is_token_expired t now = true →
      (get_valid_access_token (some t) r now).1 = Except.ok s →
      ∃ t2, r = Except.ok t2 ∧ s = t2.access_token) := by
  refine ⟨fun hexp => ?_, fun hexp => ?_, fun e hexp hr => ?_, fun s hexp hok => ?_⟩
  · cases r <;> simp [get_valid_access_token, hexp]
  · simp [get_valid_access_token, hexp]
  · subst hr
    simp [get_valid_access_token, hexp]
  · cases r with
    | error e =>
      simp [get_valid_access_token, hexp] at hok
    | ok t2 =>
      simp [get_valid_access_token, hexp] at hok
      exact ⟨t2, rfl, hok.symm⟩

/-- C6 witness: with the concrete expired credential `cred5` at time 150
and a failing refresh, the refresh is attempted exactly once and its error
is what the caller receives. -/
theorem C6_get_valid_access_token_refresh_witness :
    (get_valid_access_token (some cred5) (Except.error refreshFailMsg) 150).1 =
        Except.error refreshFailMsg ∧
      (get_valid_access_token (some cred5) (Except.error refreshFailMsg) 150).2 = 1 :=
  ⟨(C6_get_valid_access_token_refresh cred5 (Except.error refreshFailMsg) 150).2.2.1
      refreshFailMsg (by decide) rfl,
    (C6_get_valid_access_token_refresh cred5 (Except.error refreshFailMsg) 150).1
      (by decide)⟩

end Ewabot
